import Mathlib

/-!
Verification of the BuildForge backend (src/app.py) against its specification.

The Flask application is shallowly embedded: the three MongoDB collections
(users, projects, components) are modelled as Lean lists in insertion order
(`insert_one` appends at the end, which is the natural order observed by an
unsorted `find`), `find_one` is `List.find?` (first match), `update_one`
updates the first matching record, `delete_one` removes the first matching
record, `delete_many` filters, the array operator push appends, and the array
pull operator removes every matching element.  Opaque uuid identifiers are
modelled as natural numbers, supplied to each operation as a parameter that a
step relation constrains to be fresh, and iso timestamps are modelled as a
natural number parameter (the source calls get_timestamp separately for
created_at and updated_at inside one request; the model passes one value per
request, which no property here depends on).  Each HTTP handler becomes a pure
function from the store state and the request fields to a result and, when it
writes, a new state; a handler that answers an error performs no write in the
source, which the embedding reflects by returning the state unchanged or no
state at all.  Python string lowering is modelled on the ascii range, which
covers every keyword and tag the dispatch uses.
-/

/-- Error taxonomy of the API surface (400, 401, 404, 409). -/
inductive Err where
  | invalidInput
  | unauthorized
  | notFound
  | conflict
deriving DecidableEq

/-- A user record as stored by signup (src/app.py lines 69-76).  The password
field holds the bcrypt hash; the name field is stored exactly as sent, so it
may be missing. -/
structure User where
  user_id : Nat
  email : String
  password : String
  name : Option String
  created_at : Nat
  updated_at : Nat
deriving DecidableEq

/-- A project record (src/app.py lines 149-157): the components field is the
ordered list of component ids attached to the project. -/
structure Project where
  project_id : Nat
  user_id : Nat
  name : String
  description : String
  created_at : Nat
  updated_at : Nat
  components : List Nat
deriving DecidableEq

/-- A 2D position as stored in the position field of a component. -/
structure Position where
  x : Int
  y : Int
deriving DecidableEq

/-- A component record (src/app.py lines 216-225).  The type field models the
json type value: `none` stands for a record without a type entry, which
`component.get ("type", "")` in generate_html treats as the empty string.
Property values are modelled by their rendered string. -/
structure Component where
  component_id : Nat
  project_id : Nat
  type : Option String
  properties : List (String × String)
  content : String
  position : Position
  created_at : Nat
  updated_at : Nat
deriving DecidableEq

/-- The three collections of the buildforge database. -/
structure State where
  users : List User
  projects : List Project
  components : List Component
deriving DecidableEq

/-- The empty database. -/
def initialState : State := { users := [], projects := [], components := [] }

/-- Body of a POST components request (src/app.py lines 213-224): the type is
the string sent by the client, the remaining fields default when omitted. -/
structure ComponentReq where
  type : String
  properties : Option (List (String × String))
  content : Option String
  position : Option Position
deriving DecidableEq

/-- Body of a PUT component request (src/app.py lines 256-262).  A type entry
may be present in the json body but the handler never reads it. -/
structure UpdateComponentReq where
  type : Option String
  properties : Option (List (String × String))
  content : Option String
  position : Option Position
deriving DecidableEq

/-- Update the first element satisfying the test, as `update_one` does. -/
def updateFirst (p : α → Bool) (f : α → α) : List α → List α
  | [] => []
  | x :: xs => if p x then f x :: xs else x :: updateFirst p f xs

/-- Remove the first element satisfying the test, as `delete_one` does. -/
def removeFirst (p : α → Bool) : List α → List α
  | [] => []
  | x :: xs => if p x then xs else x :: removeFirst p xs

/-- Whether the first list starts the second (helper for substring tests). -/
def leads : List Char → List Char → Bool
  | [], _ => true
  | _ :: _, [] => false
  | a :: as, b :: bs => a == b && leads as bs

/-- Whether the first list occurs contiguously inside the second. -/
def inside (pat : List Char) : List Char → Bool
  | [] => leads pat []
  | b :: bs => leads pat (b :: bs) || inside pat bs

/-- Python `pat in s` on strings. -/
def hasSub (s pat : String) : Bool := inside pat.data s.data

/-- Python `str.lower`, modelled on the ascii range (every tag and keyword the
source lowers is ascii). -/
def pyLower (s : String) : String := String.mk (s.data.map Char.toLower)

/-- Python `props.get (key, default)` for a string-valued property mapping. -/
def propGet (props : List (String × String)) (key default : String) : String :=
  match props.find? (fun kv => kv.1 == key) with
  | some kv => kv.2
  | none => default

/-- Modelled from the spec: `bcrypt.generate_password_hash` is an external
library (out of scope per the spec); the spec only requires an irreversible
hash, and no claim depends on the hash value, so the model keeps the password
as the representative of its hash. -/
def generate_password_hash (password : String) : String := password

/-- Result of the signup handler. -/
inductive SignupRes where
  | created (u : User)
  | invalid
  | conflict
deriving DecidableEq

/-- POST /api/auth/signup (src/app.py lines 49-94).  Python `not email` is
true for a missing field and for the empty string, and this check runs before
the duplicate-email lookup.  An error answer performs no write. -/
def signup (s : State) (email password name : Option String) (uid now : Nat) :
    SignupRes × State :=
  if email.getD "" == "" || password.getD "" == "" then (.invalid, s)
  else
    match s.users.find? (fun u => u.email == email.getD "") with
    | some _ => (.conflict, s)
    | none =>
      let u : User :=
        { user_id := uid
          email := email.getD ""
          password := generate_password_hash (password.getD "")
          name := name
          created_at := now
          updated_at := now }
      (.created u, { s with users := s.users ++ [u] })

/-- POST /api/projects (src/app.py lines 145-160): create a project with the
defaults of the source and append it to the collection. -/
def handle_projects_post (s : State) (uid : Nat) (name description : Option String)
    (pid now : Nat) : Project × State :=
  let p : Project :=
    { project_id := pid
      user_id := uid
      name := name.getD "Untitled Project"
      description := description.getD ""
      created_at := now
      updated_at := now
      components := [] }
  (p, { s with projects := s.projects ++ [p] })

/-- `find_one (project_id, user_id)` as every project-scoped handler runs it
(src/app.py line 170 and the like). -/
def getProject (s : State) (uid pid : Nat) : Option Project :=
  s.projects.find? (fun p => p.project_id == pid && p.user_id == uid)

/-- PUT /api/projects/id (src/app.py lines 178-192): partial update of name
and description; the write filters on project_id alone. -/
def handle_project_put (s : State) (uid pid : Nat) (name description : Option String)
    (now : Nat) : Except Err State :=
  match getProject s uid pid with
  | none => .error .notFound
  | some p =>
    .ok { s with
          projects := updateFirst (fun q => q.project_id == pid)
            (fun q => { q with
                        name := name.getD p.name
                        description := description.getD p.description
                        updated_at := now }) s.projects }

/-- DELETE /api/projects/id (src/app.py lines 194-198): delete the project
record, then every component whose project_id matches. -/
def handle_project_delete (s : State) (uid pid : Nat) : Except Err State :=
  match getProject s uid pid with
  | none => .error .notFound
  | some _ =>
    .ok { s with
          projects := removeFirst (fun p => p.project_id == pid) s.projects
          components := s.components.filter (fun c => c.project_id != pid) }

/-- POST /api/projects/id/components (src/app.py lines 203-238): insert the
component record, then push its id onto the project's components array. -/
def add_component (s : State) (uid pid : Nat) (req : ComponentReq) (cid now : Nat) :
    Except Err (Component × State) :=
  match getProject s uid pid with
  | none => .error .notFound
  | some _ =>
    let c : Component :=
      { component_id := cid
        project_id := pid
        type := some req.type
        properties := req.properties.getD []
        content := req.content.getD ""
        position := req.position.getD { x := 0, y := 0 }
        created_at := now
        updated_at := now }
    .ok (c, { s with
              components := s.components ++ [c]
              projects := updateFirst (fun p => p.project_id == pid)
                (fun p => { p with components := p.components ++ [cid], updated_at := now })
                s.projects })

/-- PUT /api/projects/id/components/cid (src/app.py lines 255-270): partial
update of properties, content and position only; the write and the re-fetch
filter on component_id alone. -/
def handle_component_put (s : State) (uid pid cid : Nat) (req : UpdateComponentReq)
    (now : Nat) : Except Err (Component × State) :=
  match getProject s uid pid with
  | none => .error .notFound
  | some _ =>
    match s.components.find? (fun c => c.component_id == cid && c.project_id == pid) with
    | none => .error .notFound
    | some c =>
      let comps := updateFirst (fun d => d.component_id == cid)
        (fun d => { d with
                    properties := req.properties.getD c.properties
                    content := req.content.getD c.content
                    position := req.position.getD c.position
                    updated_at := now }) s.components
      match comps.find? (fun d => d.component_id == cid) with
      | some c2 => .ok (c2, { s with components := comps })
      | none => .error .notFound

/-- DELETE /api/projects/id/components/cid (src/app.py lines 272-281): delete
the component record, then pull its id from the project's components array. -/
def handle_component_delete (s : State) (uid pid cid : Nat) (now : Nat) :
    Except Err State :=
  match getProject s uid pid with
  | none => .error .notFound
  | some _ =>
    match s.components.find? (fun c => c.component_id == cid && c.project_id == pid) with
    | none => .error .notFound
    | some _ =>
      .ok { s with
            components := removeFirst (fun c => c.component_id == cid) s.components
            projects := updateFirst (fun p => p.project_id == pid)
              (fun p => { p with
                          components := p.components.filter (fun i => i != cid)
                          updated_at := now }) s.projects }

/-- The components the generator reads for a project (src/app.py line 299). -/
def componentsOf (s : State) (pid : Nat) : List Component :=
  s.components.filter (fun c => c.project_id == pid)

/-- Fixed page head of the generated markup (src/app.py lines 375-384). -/
def htmlHead : String :=
  "<!DOCTYPE html>\n<html lang=\"en\">\n<head>\n    <meta charset=\"UTF-8\">\n    <meta name=\"viewport\" content=\"width=device-width, initial-scale=1.0\">\n    <title>Generated Website</title>\n    <link rel=\"stylesheet\" href=\"styles.css\">\n</head>\n<body>\n"

/-- Fixed page tail of the generated markup (src/app.py lines 400-402). -/
def htmlTail : String :=
  "    <script src=\"script.js\"></script>\n</body>\n</html>"

/-- The markup fragment one component contributes inside the loop of
generate_html (src/app.py lines 386-398). -/
def componentHtml (c : Component) : String :=
  let comp_type := pyLower (c.type.getD "")
  let props := c.properties
  let content := c.content
  if comp_type == "header" then
    "    <header>\n        <h1>" ++ content ++ "</h1>\n    </header>\n"
  else if comp_type == "hero" then
    "    <section class=\"hero\">\n        <h2>" ++ propGet props "title" "Hero Title"
      ++ "</h2>\n        <p>" ++ propGet props "subtitle" "Hero subtitle"
      ++ "</p>\n        <button>" ++ propGet props "buttonText" "Get Started"
      ++ "</button>\n    </section>\n"
  else if comp_type == "text" then
    "    <section>\n        <p>" ++ content ++ "</p>\n    </section>\n"
  else if comp_type == "form" then
    "    <form>\n        <input type=\"text\" placeholder=\"Your Name\">\n        <input type=\"email\" placeholder=\"Your Email\">\n        <textarea placeholder=\"Your Message\"></textarea>\n        <button type=\"submit\">Submit</button>\n    </form>\n"
  else ""

/-- generate_html (src/app.py lines 374-404): start from the head, append one
fragment per component in iteration order, close with the tail. -/
def generate_html (components : List Component) : String :=
  (components.foldl (fun html c => html ++ componentHtml c) htmlHead) ++ htmlTail

/-- generate_css (src/app.py lines 406-454): constant text, the argument is
ignored. -/
def generate_css (_components : List Component) : String :=
  "body \x7b\n    font-family: Arial, sans-serif;\n    line-height: 1.6;\n    margin: 0;\n    padding: 0;\n    color: #333;\n\x7d\n\n.hero \x7b\n    background: linear-gradient(120deg, #6366f1, #8b5cf6);\n    color: white;\n    padding: 3rem 2rem;\n    text-align: center;\n\x7d\n\n.hero button \x7b\n    background: white;\n    color: #6366f1;\n    border: none;\n    padding: 0.75rem 1.5rem;\n    border-radius: 0.375rem;\n    font-weight: bold;\n    cursor: pointer;\n    margin-top: 1rem;\n\x7d\n\nform \x7b\n    display: grid;\n    gap: 1rem;\n    max-width: 400px;\n    margin: 2rem auto;\n    padding: 2rem;\n\x7d\n\ninput, textarea \x7b\n    padding: 0.75rem;\n    border: 1px solid #ddd;\n    border-radius: 0.375rem;\n\x7d\n\nbutton[type=\"submit\"] \x7b\n    background: #6366f1;\n    color: white;\n    border: none;\n    padding: 0.75rem;\n    border-radius: 0.375rem;\n    cursor: pointer;\n\x7d"

/-- generate_js (src/app.py lines 456-469): constant text, the argument is
ignored. -/
def generate_js (_components : List Component) : String :=
  "// Generated JavaScript code\ndocument.addEventListener(\x27DOMContentLoaded\x27, function() \x7b\n    console.log(\x27Website loaded successfully\x27);\n    \n    // Form submission handler\n    const form = document.querySelector(\x27form\x27);\n    if (form) \x7b\n        form.addEventListener(\x27submit\x27, function(e) \x7b\n            e.preventDefault();\n            alert(\x27Form submitted! (This is a demo)\x27);\n        \x7d);\n    \x7d\n\x7d);"

/-- generate_python_api (src/app.py lines 471-484): constant shape, only the
project name is interpolated. -/
def generate_python_api (project : Project) (_components : List Component) : String :=
  "# Generated Flask API for " ++ project.name
    ++ "\nfrom flask import Flask, request, jsonify\nfrom flask_cors import CORS\n\napp = Flask(__name__)\nCORS(app)\n\n@app.route(\x27/api/data\x27, methods=[\x27GET\x27])\ndef get_data():\n    return jsonify(\x7b\"message\": \"Hello from "
    ++ project.name ++ " API\"\x7d)\n\nif __name__ == \x27__main__\x27:\n    app.run(debug=True)"

/-- generate_db_schema (src/app.py lines 486-495): constant text. -/
def generate_db_schema (_components : List Component) : String :=
  "-- Generated database schema\nCREATE TABLE users (\n    id SERIAL PRIMARY KEY,\n    email VARCHAR(255) UNIQUE NOT NULL,\n    password_hash VARCHAR(255) NOT NULL,\n    created_at TIMESTAMP DEFAULT CURRENT_TIMESTAMP\n);\n\n-- Additional tables based on your components..."

/-- The artifact bundle answered by POST /api/generate-code. -/
structure GenOutput where
  html : String
  css : String
  js : String
  python : String
  schema : String
deriving DecidableEq

/-- POST /api/generate-code (src/app.py lines 286-327): fetch the project,
snapshot its components, emit every artifact.  The handler performs no
write. -/
def generate_code (s : State) (uid pid : Nat) : Except Err GenOutput :=
  match getProject s uid pid with
  | none => .error .notFound
  | some project =>
    let components := componentsOf s pid
    .ok { html := generate_html components
          css := generate_css components
          js := generate_js components
          python := generate_python_api project components
          schema := generate_db_schema components }

/-- simulate_ai_response (src/app.py lines 497-509): keyword match on the
lowered prompt, in source order. -/
def simulate_ai_response (prompt : String) (_project_id : Nat) : String :=
  let prompt_lower := pyLower prompt
  if hasSub prompt_lower "header" then
    "I\x27ve added a header component to your project. You can customize the text and style in the properties panel."
  else if hasSub prompt_lower "hero" then
    "I\x27ve created a hero section for your website. You can adjust the title, subtitle, and button text in the properties panel."
  else if hasSub prompt_lower "form" then
    "I\x27ve added a contact form to your project. You can configure the form fields and submission behavior in the properties panel."
  else if hasSub prompt_lower "button" then
    "I\x27ve created a button component. You can customize the text, color, and action in the properties panel."
  else
    "I\x27ve processed your request: \x27" ++ prompt
      ++ "\x27. In a real implementation, I would generate components or fix issues based on your prompt."

/-- POST /api/ai-assistant (src/app.py lines 353-371): answer the simulated
response; the handler reads and writes no collection. -/
def ai_assistant (s : State) (prompt : String) (project_id : Nat) : State × String :=
  (s, simulate_ai_response prompt project_id)

/-- The project ids present in the store. -/
def projectIds (s : State) : List Nat := s.projects.map Project.project_id

/-- The component ids present in the store. -/
def componentIds (s : State) : List Nat := s.components.map Component.component_id

/-- One successful mutating request.  The id a handler obtains from
generate_id is a fresh uuid, modelled by a freshness side condition on the
ids currently stored. -/
inductive Step : State → State → Prop where
  | signup_req (s : State) (email password name : Option String) (uid now : Nat)
      (r : SignupRes) (s' : State) :
      signup s email password name uid now = (r, s') → Step s s'
  | project_create (s : State) (uid : Nat) (name description : Option String)
      (pid now : Nat) (p : Project) (s' : State) :
      pid ∉ projectIds s →
      handle_projects_post s uid name description pid now = (p, s') → Step s s'
  | project_update (s : State) (uid pid : Nat) (name description : Option String)
      (now : Nat) (s' : State) :
      handle_project_put s uid pid name description now = .ok s' → Step s s'
  | project_delete (s : State) (uid pid : Nat) (s' : State) :
      handle_project_delete s uid pid = .ok s' → Step s s'
  | component_add (s : State) (uid pid : Nat) (req : ComponentReq) (cid now : Nat)
      (c : Component) (s' : State) :
      cid ∉ componentIds s →
      add_component s uid pid req cid now = .ok (c, s') → Step s s'
  | component_update (s : State) (uid pid cid : Nat) (req : UpdateComponentReq)
      (now : Nat) (c : Component) (s' : State) :
      handle_component_put s uid pid cid req now = .ok (c, s') → Step s s'
  | component_delete (s : State) (uid pid cid : Nat) (now : Nat) (s' : State) :
      handle_component_delete s uid pid cid now = .ok s' → Step s s'

/-- States the API can reach from the empty database. -/
inductive Reachable : State → Prop where
  | init : Reachable initialState
  | step {s s' : State} : Reachable s → Step s s' → Reachable s'

/-- The store invariant: ids are unique, every component belongs to a stored
project, and each project's components field lists exactly the ids of the
component records that reference it, in collection order. -/
structure StoreInv (s : State) : Prop where
  proj_nodup : (projectIds s).Nodup
  comp_nodup : (componentIds s).Nodup
  lists_eq : ∀ p ∈ s.projects,
    p.components = (componentsOf s p.project_id).map Component.component_id
  no_dangle : ∀ c ∈ s.components, c.project_id ∈ projectIds s

/-- The component fragments concatenated in iteration order. -/
def concatFragments (components : List Component) : String :=
  components.foldr (fun c r => componentHtml c ++ r) ""

/-- A sample project, as created by handle_projects_post. -/
def exProject : Project :=
  { project_id := 10, user_id := 1, name := "Site", description := "",
    created_at := 0, updated_at := 0, components := [] }

/-- The store after creating the sample project in the empty store. -/
def exState1 : State := { users := [], projects := [exProject], components := [] }

/-- A sample header component, as created by add_component. -/
def exComponent : Component :=
  { component_id := 20, project_id := 10, type := some "header", properties := [],
    content := "Welcome", position := { x := 0, y := 0 }, created_at := 2, updated_at := 2 }

/-- The sample project after the sample component was attached. -/
def exProject2 : Project := { exProject with components := [20], updated_at := 2 }

/-- The store after creating the sample project and adding the sample
component. -/
def exState2 : State :=
  { users := [], projects := [exProject2], components := [exComponent] }

/-- A sample registered user. -/
def exUser : User :=
  { user_id := 1, email := "ada@example.com", password := "pw", name := some "Ada",
    created_at := 0, updated_at := 0 }

/-- A store holding only the sample user. -/
def exStateU : State := { users := [exUser], projects := [], components := [] }

/-- A sample component update request that also tries to overwrite the type. -/
def exUpdateReq : UpdateComponentReq :=
  { type := some "hero", properties := some [("title", "T")], content := none,
    position := none }

/-- The sample component after the sample update request was applied. -/
def exComponent3 : Component := { exComponent with properties := [("title", "T")], updated_at := 3 }

/-- The sample store after the sample update request was applied. -/
def exState4 : State :=
  { users := [], projects := [exProject2], components := [exComponent3] }

/-! ## List helper lemmas -/

theorem updateFirst_map_of {α β : Type} (p : α → Bool) (f : α → α) (g : α → β)
    (h : ∀ x, g (f x) = g x) : ∀ l : List α, (updateFirst p f l).map g = l.map g := by
  intro l
  induction l with
  | nil => rfl
  | cons x xs ih =>
    by_cases hp : p x = true
    · simp [updateFirst, hp, h]
    · simp only [Bool.not_eq_true] at hp
      simp [updateFirst, hp, ih]

theorem mem_updateFirst {α : Type} {p : α → Bool} {f : α → α} {l : List α} {q : α}
    (h : q ∈ updateFirst p f l) : q ∈ l ∨ ∃ x, x ∈ l ∧ p x = true ∧ q = f x := by
  induction l with
  | nil => simp [updateFirst] at h
  | cons x xs ih =>
    by_cases hp : p x = true
    · simp only [updateFirst, hp, if_true] at h
      rcases List.mem_cons.mp h with h1 | h1
      · exact Or.inr ⟨x, List.mem_cons_self x xs, hp, h1⟩
      · exact Or.inl (List.mem_cons_of_mem x h1)
    · simp only [Bool.not_eq_true] at hp
      simp only [updateFirst, hp, Bool.false_eq_true, if_false] at h
      rcases List.mem_cons.mp h with h1 | h1
      · exact Or.inl (h1 ▸ List.mem_cons_self x xs)
      · rcases ih h1 with h2 | ⟨y, hy, hpy, hq⟩
        · exact Or.inl (List.mem_cons_of_mem x h2)
        · exact Or.inr ⟨y, List.mem_cons_of_mem x hy, hpy, hq⟩

theorem mem_updateFirst_of_not {α : Type} {p : α → Bool} (f : α → α) {l : List α} {d : α}
    (hd : d ∈ l) (hp : p d = false) : d ∈ updateFirst p f l := by
  induction l with
  | nil => simp at hd
  | cons x xs ih =>
    rcases List.mem_cons.mp hd with h1 | h1
    · subst h1
      simp [updateFirst, hp]
    · by_cases hx : p x = true
      · simp only [updateFirst, hx, if_true]
        exact List.mem_cons_of_mem _ h1
      · simp only [Bool.not_eq_true] at hx
        simp only [updateFirst, hx, Bool.false_eq_true, if_false]
        exact List.mem_cons_of_mem x (ih h1)

theorem map_filter_updateFirst {α β : Type} (pr q : α → Bool) (f : α → α) (g : α → β)
    (hq : ∀ x, q (f x) = q x) (hg : ∀ x, g (f x) = g x) :
    ∀ l : List α, ((updateFirst pr f l).filter q).map g = (l.filter q).map g := by
  intro l
  induction l with
  | nil => rfl
  | cons x xs ih =>
    by_cases hx : pr x = true
    · by_cases hqx : q x = true
      · simp [updateFirst, hx, List.filter_cons, hq, hqx, hg]
      · simp only [Bool.not_eq_true] at hqx
        simp [updateFirst, hx, List.filter_cons, hq, hqx]
    · simp only [Bool.not_eq_true] at hx
      by_cases hqx : q x = true
      · simp [updateFirst, hx, List.filter_cons, hqx, ih]
      · simp only [Bool.not_eq_true] at hqx
        simp [updateFirst, hx, List.filter_cons, hqx, ih]

theorem removeFirst_sublist {α : Type} (p : α → Bool) :
    ∀ l : List α, (removeFirst p l).Sublist l := by
  intro l
  induction l with
  | nil => simp [removeFirst]
  | cons x xs ih =>
    by_cases hx : p x = true
    · simp only [removeFirst, hx, if_true]
      exact List.sublist_cons_self x xs
    · simp only [Bool.not_eq_true] at hx
      simp only [removeFirst, hx, Bool.false_eq_true, if_false]
      exact List.Sublist.cons₂ x ih

theorem mem_removeFirst_of_not {α : Type} {p : α → Bool} {l : List α} {d : α}
    (hd : d ∈ l) (hp : p d = false) : d ∈ removeFirst p l := by
  induction l with
  | nil => simp at hd
  | cons x xs ih =>
    rcases List.mem_cons.mp hd with h1 | h1
    · subst h1
      simp [removeFirst, hp]
    · by_cases hx : p x = true
      · simpa [removeFirst, hx] using h1
      · simp only [Bool.not_eq_true] at hx
        simp only [removeFirst, hx, Bool.false_eq_true, if_false]
        exact List.mem_cons_of_mem x (ih h1)

theorem nodup_key_inj {α : Type} {g : α → Nat} {l : List α} (hn : (l.map g).Nodup)
    {a b : α} (ha : a ∈ l) (hb : b ∈ l) (hg : g a = g b) : a = b := by
  induction l with
  | nil => simp at ha
  | cons x xs ih =>
    simp only [List.map_cons, List.nodup_cons] at hn
    rcases List.mem_cons.mp ha with h1 | h1 <;> rcases List.mem_cons.mp hb with h2 | h2
    · exact h1.trans h2.symm
    · subst h1
      have : g b ∈ xs.map g := List.mem_map_of_mem g h2
      rw [← hg] at this
      exact absurd this hn.1
    · subst h2
      have : g a ∈ xs.map g := List.mem_map_of_mem g h1
      rw [hg] at this
      exact absurd this hn.1
    · exact ih hn.2 h1 h2

theorem mem_removeFirst_key {α : Type} {g : α → Nat} {k : Nat} {l : List α} {q : α}
    (hn : (l.map g).Nodup) (hm : q ∈ removeFirst (fun x => g x == k) l) :
    q ∈ l ∧ g q ≠ k := by
  refine ⟨(removeFirst_sublist _ l).subset hm, ?_⟩
  induction l with
  | nil => simp [removeFirst] at hm
  | cons x xs ih =>
    simp only [List.map_cons, List.nodup_cons] at hn
    by_cases hx : g x = k
    · simp only [removeFirst, hx, beq_self_eq_true, if_true] at hm
      intro hq
      have : g q ∈ xs.map g := List.mem_map_of_mem g hm
      rw [hq, ← hx] at this
      exact hn.1 this
    · have hx' : (g x == k) = false := by simpa using hx
      simp only [removeFirst, hx', Bool.false_eq_true, if_false] at hm
      rcases List.mem_cons.mp hm with h1 | h1
      · subst h1; exact hx
      · exact ih hn.2 h1

theorem removeFirst_key_eq_filter {α : Type} {g : α → Nat} {k : Nat} {l : List α}
    (hn : (l.map g).Nodup) :
    removeFirst (fun x => g x == k) l = l.filter (fun x => g x != k) := by
  induction l with
  | nil => rfl
  | cons x xs ih =>
    simp only [List.map_cons, List.nodup_cons] at hn
    by_cases hx : g x = k
    · simp only [removeFirst, hx, beq_self_eq_true, if_true, List.filter_cons, bne_self_eq_false,
        Bool.false_eq_true, if_false]
      symm
      apply List.filter_eq_self.mpr
      intro a ha
      simp only [bne_iff_ne, ne_eq]
      intro hak
      have : g a ∈ xs.map g := List.mem_map_of_mem g ha
      rw [hak, ← hx] at this
      exact hn.1 this
    · have hx' : (g x == k) = false := by simpa using hx
      simp [removeFirst, hx', List.filter_cons, bne, hx', ih hn.2]

theorem mem_updateFirst_key {α : Type} {g : α → Nat} {k : Nat} {f : α → α} {l : List α} {q : α}
    (hn : (l.map g).Nodup) (hm : q ∈ updateFirst (fun x => g x == k) f l) :
    (q ∈ l ∧ g q ≠ k) ∨ ∃ x, x ∈ l ∧ g x = k ∧ q = f x := by
  induction l with
  | nil => simp [updateFirst] at hm
  | cons x xs ih =>
    simp only [List.map_cons, List.nodup_cons] at hn
    by_cases hx : g x = k
    · simp only [updateFirst, hx, beq_self_eq_true, if_true] at hm
      rcases List.mem_cons.mp hm with h1 | h1
      · exact Or.inr ⟨x, List.mem_cons_self x xs, hx, h1⟩
      · refine Or.inl ⟨List.mem_cons_of_mem x h1, ?_⟩
        intro hq
        have : g q ∈ xs.map g := List.mem_map_of_mem g h1
        rw [hq, ← hx] at this
        exact hn.1 this
    · have hx' : (g x == k) = false := by simpa using hx
      simp only [updateFirst, hx', Bool.false_eq_true, if_false] at hm
      rcases List.mem_cons.mp hm with h1 | h1
      · exact Or.inl ⟨h1 ▸ List.mem_cons_self x xs, h1 ▸ hx⟩
      · rcases ih hn.2 h1 with ⟨h2, h3⟩ | ⟨y, hy, hgy, hq⟩
        · exact Or.inl ⟨List.mem_cons_of_mem x h2, h3⟩
        · exact Or.inr ⟨y, List.mem_cons_of_mem x hy, hgy, hq⟩

theorem find?_key_updateFirst {α : Type} {g : α → Nat} {k : Nat} {q : α → Bool}
    {f : α → α} {l : List α} {c : α} (hn : (l.map g).Nodup)
    (hf : l.find? (fun d => g d == k && q d) = some c) (hpres : ∀ x, g (f x) = g x) :
    (updateFirst (fun d => g d == k) f l).find? (fun d => g d == k) = some (f c) := by
  induction l with
  | nil => simp at hf
  | cons x xs ih =>
    simp only [List.map_cons, List.nodup_cons] at hn
    rw [List.find?_cons] at hf
    by_cases hx : g x = k
    · by_cases hqx : q x = true
      · simp only [hx, beq_self_eq_true, hqx, Bool.and_self] at hf
        injection hf with hf
        subst hf
        simp only [updateFirst, hx, beq_self_eq_true, if_true]
        rw [List.find?_cons]
        simp [hpres, hx]
      · simp only [Bool.not_eq_true] at hqx
        simp only [hqx, Bool.and_false] at hf
        have hc : c ∈ xs := List.mem_of_find?_eq_some hf
        have hck := List.find?_some hf
        have hgc : g c = k := by
          simp only [Bool.and_eq_true, beq_iff_eq] at hck
          exact hck.1
        have : g c ∈ xs.map g := List.mem_map_of_mem g hc
        rw [hgc, ← hx] at this
        exact absurd this hn.1
    · have hx' : (g x == k) = false := by simpa using hx
      simp only [hx', Bool.false_and] at hf
      simp only [updateFirst, hx', Bool.false_eq_true, if_false]
      rw [List.find?_cons]
      simp only [hx']
      exact ih hn.2 hf

/-! ## String and substring helper lemmas -/

theorem foldl_append_concat {α : Type} (f : α → String) :
    ∀ (l : List α) (acc : String),
      l.foldl (fun a c => a ++ f c) acc = acc ++ l.foldr (fun c r => f c ++ r) "" := by
  intro l
  induction l with
  | nil => intro acc; simp
  | cons x xs ih =>
    intro acc
    simp only [List.foldl_cons, List.foldr_cons]
    rw [ih (acc ++ f x), String.append_assoc]

theorem generate_html_concat (components : List Component) :
    generate_html components = htmlHead ++ concatFragments components ++ htmlTail := by
  unfold generate_html concatFragments
  rw [foldl_append_concat]

theorem leads_append_self : ∀ (p rest : List Char), leads p (p ++ rest) = true := by
  intro p
  induction p with
  | nil => intro rest; rfl
  | cons a as ih =>
    intro rest
    simp [leads, ih]

theorem inside_of_leads {p l : List Char} (h : leads p l = true) : inside p l = true := by
  cases l with
  | nil => simpa [inside] using h
  | cons b bs => simp [inside, h]

theorem inside_cons {p l : List Char} (a : Char) (h : inside p l = true) :
    inside p (a :: l) = true := by
  simp [inside, h]

theorem inside_append_mid (p : List Char) : ∀ (pre post : List Char),
    inside p (pre ++ (p ++ post)) = true := by
  intro pre
  induction pre with
  | nil =>
    intro post
    exact inside_of_leads (leads_append_self p post)
  | cons a as ih =>
    intro post
    exact inside_cons a (ih post)

theorem hasSub_append_mid (pre pat post : String) :
    hasSub (pre ++ pat ++ post) pat = true := by
  unfold hasSub
  rw [String.data_append, String.data_append, List.append_assoc]
  exact inside_append_mid pat.data pre.data post.data

/-! ## Handler shape lemmas -/

theorem signup_state (s : State) (email password name : Option String) (uid now : Nat)
    (r : SignupRes) (s' : State) (h : signup s email password name uid now = (r, s')) :
    s'.projects = s.projects ∧ s'.components = s.components := by
  unfold signup at h
  by_cases he : (email.getD "" == "" || password.getD "" == "") = true
  · rw [if_pos he] at h
    cases h
    exact ⟨rfl, rfl⟩
  · rw [if_neg he] at h
    cases hf : s.users.find? (fun u => u.email == email.getD "") with
    | some u => rw [hf] at h; cases h; exact ⟨rfl, rfl⟩
    | none => rw [hf] at h; cases h; exact ⟨rfl, rfl⟩

theorem getProject_some {s : State} {uid pid : Nat} {p : Project}
    (h : getProject s uid pid = some p) :
    p ∈ s.projects ∧ p.project_id = pid ∧ p.user_id = uid := by
  unfold getProject at h
  have h1 := List.find?_some h
  have h2 := List.mem_of_find?_eq_some h
  simp only [Bool.and_eq_true, beq_iff_eq] at h1
  exact ⟨h2, h1.1, h1.2⟩

theorem project_put_state {s : State} {uid pid : Nat} {name description : Option String}
    {now : Nat} {s' : State} (h : handle_project_put s uid pid name description now = .ok s') :
    ∃ p, getProject s uid pid = some p ∧
      s' = { s with
             projects := updateFirst (fun q => q.project_id == pid)
               (fun q => { q with
                           name := name.getD p.name
                           description := description.getD p.description
                           updated_at := now }) s.projects } := by
  unfold handle_project_put at h
  cases hg : getProject s uid pid with
  | none => rw [hg] at h; cases h
  | some p =>
    rw [hg] at h
    cases h
    exact ⟨p, rfl, rfl⟩

theorem project_delete_state {s : State} {uid pid : Nat} {s' : State}
    (h : handle_project_delete s uid pid = .ok s') :
    ∃ p, getProject s uid pid = some p ∧
      s' = { s with
             projects := removeFirst (fun p => p.project_id == pid) s.projects
             components := s.components.filter (fun c => c.project_id != pid) } := by
  unfold handle_project_delete at h
  cases hg : getProject s uid pid with
  | none => rw [hg] at h; cases h
  | some p =>
    rw [hg] at h
    cases h
    exact ⟨p, rfl, rfl⟩

theorem add_component_state {s : State} {uid pid : Nat} {req : ComponentReq} {cid now : Nat}
    {c : Component} {s' : State} (h : add_component s uid pid req cid now = .ok (c, s')) :
    ∃ p, getProject s uid pid = some p ∧
      c = { component_id := cid
            project_id := pid
            type := some req.type
            properties := req.properties.getD []
            content := req.content.getD ""
            position := req.position.getD { x := 0, y := 0 }
            created_at := now
            updated_at := now } ∧
      s' = { s with
             components := s.components ++ [c]
             projects := updateFirst (fun p => p.project_id == pid)
               (fun p => { p with components := p.components ++ [cid], updated_at := now })
               s.projects } := by
  unfold add_component at h
  cases hg : getProject s uid pid with
  | none => rw [hg] at h; cases h
  | some p =>
    rw [hg] at h
    cases h
    exact ⟨p, rfl, rfl, rfl⟩

theorem component_delete_state {s : State} {uid pid cid : Nat} {now : Nat} {s' : State}
    (h : handle_component_delete s uid pid cid now = .ok s') :
    ∃ p c, getProject s uid pid = some p ∧
      s.components.find? (fun c => c.component_id == cid && c.project_id == pid) = some c ∧
      s' = { s with
             components := removeFirst (fun c => c.component_id == cid) s.components
             projects := updateFirst (fun p => p.project_id == pid)
               (fun p => { p with
                           components := p.components.filter (fun i => i != cid)
                           updated_at := now }) s.projects } := by
  unfold handle_component_delete at h
  cases hg : getProject s uid pid with
  | none => rw [hg] at h; cases h
  | some p =>
    rw [hg] at h
    cases hf : s.components.find? (fun c => c.component_id == cid && c.project_id == pid) with
    | none => rw [hf] at h; cases h
    | some c0 =>
      rw [hf] at h
      cases h
      exact ⟨p, c0, rfl, rfl, rfl⟩

theorem component_put_state {s : State} {uid pid cid : Nat} {req : UpdateComponentReq}
    {now : Nat} {c : Component} {s' : State}
    (h : handle_component_put s uid pid cid req now = .ok (c, s')) :
    ∃ p c0 comps, getProject s uid pid = some p ∧
      s.components.find? (fun d => d.component_id == cid && d.project_id == pid) = some c0 ∧
      comps = updateFirst (fun d => d.component_id == cid)
        (fun d => { d with
                    properties := req.properties.getD c0.properties
                    content := req.content.getD c0.content
                    position := req.position.getD c0.position
                    updated_at := now }) s.components ∧
      comps.find? (fun d => d.component_id == cid) = some c ∧
      s' = { s with components := comps } := by
  unfold handle_component_put at h
  cases hg : getProject s uid pid with
  | none => rw [hg] at h; cases h
  | some p =>
    cases hf : s.components.find? (fun d => d.component_id == cid && d.project_id == pid) with
    | none => simp only [hg, hf] at h; cases h
    | some c0 =>
      simp only [hg, hf] at h
      cases hf2 : (updateFirst (fun d => d.component_id == cid)
          (fun d => { d with
                      properties := req.properties.getD c0.properties
                      content := req.content.getD c0.content
                      position := req.position.getD c0.position
                      updated_at := now }) s.components).find?
            (fun d => d.component_id == cid) with
      | none => rw [hf2] at h; cases h
      | some c2 =>
        rw [hf2] at h
        cases h
        exact ⟨p, c0, _, rfl, rfl, rfl, hf2, rfl⟩

/-! ## Invariant preservation -/

theorem map_key_filter_ne (K : List Component) (cid : Nat) :
    (K.filter (fun c => c.component_id != cid)).map Component.component_id
      = (K.map Component.component_id).filter (fun i => i != cid) := by
  induction K with
  | nil => rfl
  | cons x xs ih =>
    by_cases hx : (x.component_id != cid) = true
    · simp only [List.filter_cons, List.map_cons, hx, if_true, List.map_cons, ih]
    · simp only [Bool.not_eq_true] at hx
      simp only [List.filter_cons, List.map_cons, hx, Bool.false_eq_true, if_false, ih]

theorem inv_signup {s : State} {email password name : Option String} {uid now : Nat}
    {r : SignupRes} {s' : State} (hs : StoreInv s)
    (h : signup s email password name uid now = (r, s')) : StoreInv s' := by
  obtain ⟨hp, hc⟩ := signup_state s email password name uid now r s' h
  constructor
  · unfold projectIds
    rw [hp]
    exact hs.proj_nodup
  · unfold componentIds
    rw [hc]
    exact hs.comp_nodup
  · intro p hpmem
    rw [hp] at hpmem
    have hl := hs.lists_eq p hpmem
    unfold componentsOf
    rw [hc]
    exact hl
  · intro c hcmem
    rw [hc] at hcmem
    unfold projectIds
    rw [hp]
    exact hs.no_dangle c hcmem

theorem inv_project_create {s : State} {uid : Nat} {name description : Option String}
    {pid now : Nat} {p : Project} {s' : State} (hs : StoreInv s) (hfresh : pid ∉ projectIds s)
    (h : handle_projects_post s uid name description pid now = (p, s')) : StoreInv s' := by
  unfold handle_projects_post at h
  cases h
  constructor
  · unfold projectIds
    simp only [List.map_append, List.map_cons, List.map_nil]
    refine List.Nodup.append hs.proj_nodup (List.nodup_singleton _) ?_
    intro a ha hb
    rw [List.mem_singleton] at hb
    subst hb
    exact hfresh ha
  · exact hs.comp_nodup
  · intro q hq
    rcases List.mem_append.mp hq with hq1 | hq1
    · exact hs.lists_eq q hq1
    · rw [List.mem_singleton] at hq1
      subst hq1
      show ([] : List Nat) = (componentsOf s pid).map Component.component_id
      have hnil : componentsOf s pid = [] := by
        unfold componentsOf
        rw [List.filter_eq_nil_iff]
        intro c hc
        simp only [beq_iff_eq]
        intro hcc
        exact hfresh (hcc ▸ hs.no_dangle c hc)
      rw [hnil]
      rfl
  · intro c hc
    unfold projectIds
    rw [List.map_append]
    exact List.mem_append_left _ (hs.no_dangle c hc)

theorem inv_project_put {s : State} {uid pid : Nat} {name description : Option String}
    {now : Nat} {s' : State} (hs : StoreInv s)
    (h : handle_project_put s uid pid name description now = .ok s') : StoreInv s' := by
  obtain ⟨p0, hg, hs'⟩ := project_put_state h
  subst hs'
  have hmap := updateFirst_map_of (fun q => q.project_id == pid)
    (fun q => { q with
                name := name.getD p0.name
                description := description.getD p0.description
                updated_at := now }) Project.project_id (fun x => rfl) s.projects
  constructor
  · unfold projectIds
    rw [hmap]
    exact hs.proj_nodup
  · exact hs.comp_nodup
  · intro q hq
    rcases mem_updateFirst hq with h1 | ⟨x, hx, _, hqf⟩
    · exact hs.lists_eq q h1
    · subst hqf
      exact hs.lists_eq x hx
  · intro c hc
    unfold projectIds
    rw [hmap]
    exact hs.no_dangle c hc

theorem inv_project_delete {s : State} {uid pid : Nat} {s' : State} (hs : StoreInv s)
    (h : handle_project_delete s uid pid = .ok s') : StoreInv s' := by
  obtain ⟨p0, hg, hs'⟩ := project_delete_state h
  subst hs'
  constructor
  · unfold projectIds
    exact hs.proj_nodup.sublist ((removeFirst_sublist _ s.projects).map Project.project_id)
  · unfold componentIds
    exact hs.comp_nodup.sublist ((List.filter_sublist _).map Component.component_id)
  · intro q hq
    have hkey := mem_removeFirst_key (g := Project.project_id) hs.proj_nodup hq
    unfold componentsOf
    rw [List.filter_filter]
    have heq : s.components.filter
        (fun c => (c.project_id == q.project_id) && (c.project_id != pid))
        = s.components.filter (fun c => c.project_id == q.project_id) := by
      apply List.filter_congr
      intro c _
      by_cases hcq : c.project_id = q.project_id
      · simp [hcq, hkey.2]
      · simp [hcq]
    rw [heq]
    exact hs.lists_eq q hkey.1
  · intro c hc
    rw [List.mem_filter] at hc
    obtain ⟨hc1, hc2⟩ := hc
    have hne : c.project_id ≠ pid := by simpa using hc2
    have hin := hs.no_dangle c hc1
    unfold projectIds at hin ⊢
    rw [List.mem_map] at hin ⊢
    obtain ⟨x, hx, hxe⟩ := hin
    refine ⟨x, ?_, hxe⟩
    apply mem_removeFirst_of_not hx
    rw [hxe]
    simpa using hne


theorem inv_component_add {s : State} {uid pid : Nat} {req : ComponentReq} {cid now : Nat}
    {c : Component} {s' : State} (hs : StoreInv s) (hfresh : cid ∉ componentIds s)
    (h : add_component s uid pid req cid now = .ok (c, s')) : StoreInv s' := by
  obtain ⟨p0, hg, hc, hs'⟩ := add_component_state h
  subst hs'
  have hcid : c.component_id = cid := by rw [hc]
  have hcp : c.project_id = pid := by rw [hc]
  have hgs := getProject_some hg
  have hmap := updateFirst_map_of (fun p => p.project_id == pid)
    (fun p => { p with components := p.components ++ [cid], updated_at := now })
    Project.project_id (fun x => rfl) s.projects
  constructor
  · unfold projectIds
    rw [hmap]
    exact hs.proj_nodup
  · unfold componentIds
    rw [List.map_append]
    refine List.Nodup.append hs.comp_nodup (List.nodup_singleton _) ?_
    intro a ha hb
    simp only [List.map_cons, List.map_nil, List.mem_singleton] at hb
    subst hb
    rw [hcid] at ha
    exact hfresh ha
  · intro q hq
    rcases mem_updateFirst_key (g := Project.project_id) hs.proj_nodup hq
      with ⟨hq1, hq2⟩ | ⟨x, hx, hxk, hqf⟩
    · have hIH := hs.lists_eq q hq1
      unfold componentsOf at hIH ⊢
      rw [List.filter_append]
      have hcf : (c.project_id == q.project_id) = false := by
        rw [hcp]
        simp only [beq_eq_false_iff_ne, ne_eq]
        exact fun hh => hq2 hh.symm
      have hnil : List.filter (fun d => d.project_id == q.project_id) [c] = [] := by
        simp [List.filter_cons, hcf]
      rw [hnil, List.append_nil]
      exact hIH
    · subst hqf
      have hIH := hs.lists_eq x hx
      unfold componentsOf at hIH
      show x.components ++ [cid]
        = ((s.components ++ [c]).filter (fun d => d.project_id == x.project_id)).map
            Component.component_id
      have hone : List.filter (fun d => d.project_id == x.project_id) [c] = [c] := by
        simp [List.filter_cons, hcp, hxk]
      rw [List.filter_append, hone, List.map_append]
      have hmapc : [c].map Component.component_id = [cid] := by simp [hcid]
      rw [hmapc, ← hIH]
  · intro d hd
    rcases List.mem_append.mp hd with hd1 | hd1
    · unfold projectIds
      rw [hmap]
      exact hs.no_dangle d hd1
    · rw [List.mem_singleton] at hd1
      subst hd1
      unfold projectIds
      rw [hmap, hcp, List.mem_map]
      exact ⟨p0, hgs.1, hgs.2.1⟩

theorem inv_component_put {s : State} {uid pid cid : Nat} {req : UpdateComponentReq}
    {now : Nat} {c : Component} {s' : State} (hs : StoreInv s)
    (h : handle_component_put s uid pid cid req now = .ok (c, s')) : StoreInv s' := by
  obtain ⟨p0, c0, comps, hg, hf, hcomps, hf2, hs'⟩ := component_put_state h
  subst hs'
  subst hcomps
  have hmap := updateFirst_map_of (fun d => d.component_id == cid)
    (fun d => { d with
                properties := req.properties.getD c0.properties
                content := req.content.getD c0.content
                position := req.position.getD c0.position
                updated_at := now })
    Component.component_id (fun x => rfl) s.components
  constructor
  · exact hs.proj_nodup
  · unfold componentIds
    rw [hmap]
    exact hs.comp_nodup
  · intro q hq
    have hIH := hs.lists_eq q hq
    unfold componentsOf at hIH ⊢
    have hmf := map_filter_updateFirst (fun d => d.component_id == cid)
      (fun d => d.project_id == q.project_id)
      (fun d => { d with
                  properties := req.properties.getD c0.properties
                  content := req.content.getD c0.content
                  position := req.position.getD c0.position
                  updated_at := now })
      Component.component_id (fun x => rfl) (fun x => rfl) s.components
    rw [hmf]
    exact hIH
  · intro d hd
    rcases mem_updateFirst hd with h1 | ⟨x, hx, _, hdf⟩
    · exact hs.no_dangle d h1
    · subst hdf
      exact hs.no_dangle x hx

theorem inv_component_delete {s : State} {uid pid cid : Nat} {now : Nat} {s' : State}
    (hs : StoreInv s) (h : handle_component_delete s uid pid cid now = .ok s') :
    StoreInv s' := by
  obtain ⟨p0, c0, hg, hf, hs'⟩ := component_delete_state h
  subst hs'
  have hfs := List.find?_some hf
  simp only [Bool.and_eq_true, beq_iff_eq] at hfs
  have hc0mem := List.mem_of_find?_eq_some hf
  have hrem := removeFirst_key_eq_filter (g := Component.component_id) (k := cid)
    hs.comp_nodup
  have hmap := updateFirst_map_of (fun p => p.project_id == pid)
    (fun p => { p with components := p.components.filter (fun i => i != cid), updated_at := now })
    Project.project_id (fun x => rfl) s.projects
  constructor
  · unfold projectIds
    rw [hmap]
    exact hs.proj_nodup
  · unfold componentIds
    rw [hrem]
    exact hs.comp_nodup.sublist ((List.filter_sublist _).map Component.component_id)
  · intro q hq
    rcases mem_updateFirst_key (g := Project.project_id) hs.proj_nodup hq
      with ⟨hq1, hq2⟩ | ⟨x, hx, hxk, hqf⟩
    · have hIH := hs.lists_eq q hq1
      unfold componentsOf at hIH ⊢
      rw [hrem, List.filter_filter]
      have heq : s.components.filter
          (fun d => (d.project_id == q.project_id) && (d.component_id != cid))
          = s.components.filter (fun d => d.project_id == q.project_id) := by
        apply List.filter_congr
        intro d hd
        by_cases hdq : d.project_id = q.project_id
        · have hdc : d.component_id ≠ cid := by
            intro hdc
            have hdeq : d = c0 := nodup_key_inj (g := Component.component_id)
              hs.comp_nodup hd hc0mem (hdc.trans hfs.1.symm)
            rw [hdeq, hfs.2] at hdq
            exact hq2 hdq.symm
          simp [hdq, hdc]
        · simp [hdq]
      rw [heq]
      exact hIH
    · subst hqf
      have hIH := hs.lists_eq x hx
      unfold componentsOf at hIH
      show x.components.filter (fun i => i != cid)
        = ((removeFirst (fun d => d.component_id == cid) s.components).filter
            (fun d => d.project_id == x.project_id)).map Component.component_id
      rw [hrem, List.filter_filter]
      have hswap : s.components.filter
          (fun d => (d.project_id == x.project_id) && (d.component_id != cid))
          = (s.components.filter (fun d => d.project_id == x.project_id)).filter
              (fun d => d.component_id != cid) := by
        rw [List.filter_filter]
        apply List.filter_congr
        intro d _
        exact Bool.and_comm _ _
      rw [hswap, map_key_filter_ne, ← hIH]
  · intro d hd
    have hdm := (removeFirst_sublist _ _).subset hd
    unfold projectIds
    rw [hmap]
    exact hs.no_dangle d hdm

theorem step_inv {s s' : State} (hs : StoreInv s) (st : Step s s') : StoreInv s' := by
  cases st with
  | signup_req email password name uid now r s2 h => exact inv_signup hs h
  | project_create uid name description pid now p s2 hfresh h =>
    exact inv_project_create hs hfresh h
  | project_update uid pid name description now s2 h => exact inv_project_put hs h
  | project_delete uid pid s2 h => exact inv_project_delete hs h
  | component_add uid pid req cid now c s2 hfresh h =>
    exact inv_component_add hs hfresh h
  | component_update uid pid cid req now c s2 h => exact inv_component_put hs h
  | component_delete uid pid cid now s2 h => exact inv_component_delete hs h

theorem inv_of_reachable {s : State} (h : Reachable s) : StoreInv s := by
  induction h with
  | init =>
    constructor <;> simp [initialState, projectIds, componentIds, componentsOf]
  | step _ st ih => exact step_inv ih st

/-! ## Concrete reachable store for witnesses -/

theorem step_exState1 : Step initialState exState1 :=
  Step.project_create initialState 1 (some "Site") none 10 0 exProject exState1
    (by decide) (by decide)

theorem step_exState2 : Step exState1 exState2 :=
  Step.component_add exState1 1 10
    { type := "header", properties := none, content := some "Welcome", position := none }
    20 2 exComponent exState2 (by decide) (by rfl)

theorem reachable_exState2 : Reachable exState2 :=
  Reachable.step (Reachable.step Reachable.init step_exState1) step_exState2

/-! ## Claims -/

/-- Claim C1: in every state the API can reach (so after every mutating
operation completes), each stored project's component-id list equals, element
for element and in order, the ids of the component records whose project
reference is that project; consequently each id occurs exactly once, an
existing component is always listed, and a listed id always names an existing
component of that project. -/
theorem component_list_matches_store (s : State) (hreach : Reachable s) :
    ∀ p ∈ s.projects,
      p.components = (componentsOf s p.project_id).map Component.component_id ∧
      p.components.Nodup ∧
      (∀ i, i ∈ p.components ↔
        ∃ c ∈ s.components, c.project_id = p.project_id ∧ c.component_id = i) := by
  intro p hp
  have hinv := inv_of_reachable hreach
  have h1 := hinv.lists_eq p hp
  refine ⟨h1, ?_, ?_⟩
  · rw [h1]
    exact hinv.comp_nodup.sublist ((List.filter_sublist _).map Component.component_id)
  · intro i
    rw [h1]
    unfold componentsOf
    simp only [List.mem_map, List.mem_filter, beq_iff_eq]
    constructor
    · rintro ⟨c, ⟨hc1, hc2⟩, hc3⟩
      exact ⟨c, hc1, hc2, hc3⟩
    · rintro ⟨c, hc1, hc2, hc3⟩
      exact ⟨c, ⟨hc1, hc2⟩, hc3⟩

theorem component_list_matches_store_witness :
    exProject2.components
        = (componentsOf exState2 exProject2.project_id).map Component.component_id ∧
      exProject2.components.Nodup ∧
      (∀ i, i ∈ exProject2.components ↔
        ∃ c ∈ exState2.components,
          c.project_id = exProject2.project_id ∧ c.component_id = i) :=
  component_list_matches_store exState2 reachable_exState2 exProject2 (by decide)

/-- Claim C2: a successful project Delete removes the project record and every
component whose project reference equals the deleted id: afterwards the
component snapshot for that project id is empty, no stored project carries the
id, and fetching any component id scoped to that project answers none (the
handler then returns NotFound). -/
theorem project_delete_cascades (s : State) (uid pid : Nat) (s' : State)
    (hreach : Reachable s) (h : handle_project_delete s uid pid = Except.ok s') :
    componentsOf s' pid = [] ∧
    (∀ q ∈ s'.projects, q.project_id ≠ pid) ∧
    (∀ i, s'.components.find? (fun d => d.component_id == i && d.project_id == pid)
      = none) := by
  obtain ⟨p0, hg, hs'⟩ := project_delete_state h
  subst hs'
  refine ⟨?_, ?_, ?_⟩
  · unfold componentsOf
    rw [List.filter_filter, List.filter_eq_nil_iff]
    intro c _
    by_cases hc : c.project_id = pid
    · simp [hc]
    · simp [hc]
  · intro q hq
    exact (mem_removeFirst_key (g := Project.project_id)
      (inv_of_reachable hreach).proj_nodup hq).2
  · intro i
    rw [List.find?_eq_none]
    intro d hd
    rw [List.mem_filter] at hd
    have : d.project_id ≠ pid := by simpa using hd.2
    simp [this]

theorem project_delete_cascades_witness :
    componentsOf initialState 10 = [] ∧
    (∀ q ∈ initialState.projects, q.project_id ≠ 10) ∧
    (∀ i, initialState.components.find?
      (fun d => d.component_id == i && d.project_id == 10) = none) :=
  project_delete_cascades exState2 1 10 initialState reachable_exState2 (by rfl)

/-- Claim C3: for a stored project with a non-empty component list, the
snapshot the generator iterates carries, in order, exactly the ids of the
project's component-id list, and the emitted markup is the fixed head, then
the per-component fragments concatenated in that order, then the fixed
tail. -/
theorem generation_order_follows_list (s : State) (uid pid : Nat) (p : Project)
    (hreach : Reachable s) (hp : getProject s uid pid = some p)
    (hne : p.components ≠ []) :
    (componentsOf s pid).map Component.component_id = p.components ∧
    generate_html (componentsOf s pid)
        = htmlHead ++ concatFragments (componentsOf s pid) ++ htmlTail ∧
    (∃ out, generate_code s uid pid = Except.ok out ∧
      out.html = htmlHead ++ concatFragments (componentsOf s pid) ++ htmlTail) := by
  have hinv := inv_of_reachable hreach
  have hgs := getProject_some hp
  have h1 := hinv.lists_eq p hgs.1
  rw [hgs.2.1] at h1
  refine ⟨h1.symm, generate_html_concat _, ?_⟩
  unfold generate_code
  rw [hp]
  exact ⟨_, rfl, generate_html_concat _⟩

theorem generation_order_follows_list_witness :
    (componentsOf exState2 10).map Component.component_id = exProject2.components ∧
    generate_html (componentsOf exState2 10)
        = htmlHead ++ concatFragments (componentsOf exState2 10) ++ htmlTail ∧
    (∃ out, generate_code exState2 1 10 = Except.ok out ∧
      out.html = htmlHead ++ concatFragments (componentsOf exState2 10) ++ htmlTail) :=
  generation_order_follows_list exState2 1 10 exProject2 reachable_exState2
    (by decide) (by decide)

/-- Claim C4: the generator dispatch on a component's type tag: a header
component emits a heading holding its content verbatim; a hero component emits
a section from the title, subtitle and buttonText properties with their
defaults; a text component emits a paragraph from its content verbatim; a form
component emits the fixed three-field form whatever its properties; any type
tag outside the four recognized ones contributes nothing. -/
theorem component_dispatch_cases (c : Component) :
    (c.type = some "header" →
      componentHtml c
        = "    <header>\n        <h1>" ++ c.content ++ "</h1>\n    </header>\n") ∧
    (c.type = some "hero" →
      componentHtml c
        = "    <section class=\"hero\">\n        <h2>"
            ++ propGet c.properties "title" "Hero Title"
            ++ "</h2>\n        <p>" ++ propGet c.properties "subtitle" "Hero subtitle"
            ++ "</p>\n        <button>" ++ propGet c.properties "buttonText" "Get Started"
            ++ "</button>\n    </section>\n") ∧
    (c.type = some "text" →
      componentHtml c
        = "    <section>\n        <p>" ++ c.content ++ "</p>\n    </section>\n") ∧
    (c.type = some "form" →
      componentHtml c
        = "    <form>\n        <input type=\"text\" placeholder=\"Your Name\">\n        <input type=\"email\" placeholder=\"Your Email\">\n        <textarea placeholder=\"Your Message\"></textarea>\n        <button type=\"submit\">Submit</button>\n    </form>\n") ∧
    (pyLower (c.type.getD "") ∉ (["header", "hero", "text", "form"] : List String) →
      componentHtml c = "") := by
  refine ⟨?_, ?_, ?_, ?_, ?_⟩
  · intro h
    have e1 : pyLower "header" = "header" := by decide
    simp [componentHtml, h, e1]
  · intro h
    have e1 : pyLower "hero" = "hero" := by decide
    simp [componentHtml, h, e1]
  · intro h
    have e1 : pyLower "text" = "text" := by decide
    simp [componentHtml, h, e1]
  · intro h
    have e1 : pyLower "form" = "form" := by decide
    simp [componentHtml, h, e1]
  · intro h
    have h1 : (pyLower (c.type.getD "") == "header") = false := by
      simp only [beq_eq_false_iff_ne, ne_eq]
      intro hh
      exact h (by rw [hh]; simp)
    have h2 : (pyLower (c.type.getD "") == "hero") = false := by
      simp only [beq_eq_false_iff_ne, ne_eq]
      intro hh
      exact h (by rw [hh]; simp)
    have h3 : (pyLower (c.type.getD "") == "text") = false := by
      simp only [beq_eq_false_iff_ne, ne_eq]
      intro hh
      exact h (by rw [hh]; simp)
    have h4 : (pyLower (c.type.getD "") == "form") = false := by
      simp only [beq_eq_false_iff_ne, ne_eq]
      intro hh
      exact h (by rw [hh]; simp)
    simp [componentHtml, h1, h2, h3, h4]

theorem component_dispatch_cases_witness :
    componentHtml exComponent
        = "    <header>\n        <h1>" ++ exComponent.content ++ "</h1>\n    </header>\n" ∧
    componentHtml { exComponent with type := some "hero" }
        = "    <section class=\"hero\">\n        <h2>"
            ++ propGet exComponent.properties "title" "Hero Title"
            ++ "</h2>\n        <p>" ++ propGet exComponent.properties "subtitle" "Hero subtitle"
            ++ "</p>\n        <button>" ++ propGet exComponent.properties "buttonText" "Get Started"
            ++ "</button>\n    </section>\n" ∧
    componentHtml { exComponent with type := some "text" }
        = "    <section>\n        <p>" ++ exComponent.content ++ "</p>\n    </section>\n" ∧
    componentHtml { exComponent with type := some "form" }
        = "    <form>\n        <input type=\"text\" placeholder=\"Your Name\">\n        <input type=\"email\" placeholder=\"Your Email\">\n        <textarea placeholder=\"Your Message\"></textarea>\n        <button type=\"submit\">Submit</button>\n    </form>\n" ∧
    componentHtml { exComponent with type := some "foobar" } = "" :=
  ⟨(component_dispatch_cases exComponent).1 rfl,
   (component_dispatch_cases { exComponent with type := some "hero" }).2.1 rfl,
   (component_dispatch_cases { exComponent with type := some "text" }).2.2.1 rfl,
   (component_dispatch_cases { exComponent with type := some "form" }).2.2.2.1 rfl,
   (component_dispatch_cases { exComponent with type := some "foobar" }).2.2.2.2 (by decide)⟩

/-- Claim C5: the assistant lowers the prompt and answers the first matching
canned string for the keywords header, hero, form, button in that priority
order, otherwise the fallback string holding the verbatim prompt; it is a
total function and leaves the store untouched. -/
theorem assistant_priority_and_purity (s : State) (prompt : String) (pid : Nat) :
    (ai_assistant s prompt pid).1 = s ∧
    (hasSub (pyLower prompt) "header" = true →
      (ai_assistant s prompt pid).2
        = "I\x27ve added a header component to your project. You can customize the text and style in the properties panel.") ∧
    (hasSub (pyLower prompt) "header" = false → hasSub (pyLower prompt) "hero" = true →
      (ai_assistant s prompt pid).2
        = "I\x27ve created a hero section for your website. You can adjust the title, subtitle, and button text in the properties panel.") ∧
    (hasSub (pyLower prompt) "header" = false → hasSub (pyLower prompt) "hero" = false →
      hasSub (pyLower prompt) "form" = true →
      (ai_assistant s prompt pid).2
        = "I\x27ve added a contact form to your project. You can configure the form fields and submission behavior in the properties panel.") ∧
    (hasSub (pyLower prompt) "header" = false → hasSub (pyLower prompt) "hero" = false →
      hasSub (pyLower prompt) "form" = false → hasSub (pyLower prompt) "button" = true →
      (ai_assistant s prompt pid).2
        = "I\x27ve created a button component. You can customize the text, color, and action in the properties panel.") ∧
    (hasSub (pyLower prompt) "header" = false → hasSub (pyLower prompt) "hero" = false →
      hasSub (pyLower prompt) "form" = false → hasSub (pyLower prompt) "button" = false →
      (ai_assistant s prompt pid).2
          = "I\x27ve processed your request: \x27" ++ prompt
              ++ "\x27. In a real implementation, I would generate components or fix issues based on your prompt." ∧
      hasSub (ai_assistant s prompt pid).2 prompt = true) := by
  refine ⟨rfl, ?_, ?_, ?_, ?_, ?_⟩
  · intro h1
    simp [ai_assistant, simulate_ai_response, h1]
  · intro h1 h2
    simp [ai_assistant, simulate_ai_response, h1, h2]
  · intro h1 h2 h3
    simp [ai_assistant, simulate_ai_response, h1, h2, h3]
  · intro h1 h2 h3 h4
    simp [ai_assistant, simulate_ai_response, h1, h2, h3, h4]
  · intro h1 h2 h3 h4
    constructor
    · simp [ai_assistant, simulate_ai_response, h1, h2, h3, h4]
    · have hres : (ai_assistant s prompt pid).2
          = "I\x27ve processed your request: \x27" ++ prompt
              ++ "\x27. In a real implementation, I would generate components or fix issues based on your prompt." := by
        simp [ai_assistant, simulate_ai_response, h1, h2, h3, h4]
      rw [hres]
      exact hasSub_append_mid _ _ _

theorem assistant_priority_and_purity_witness :
    (ai_assistant exState2 "Can you add a hero section?" 10).1 = exState2 ∧
    (ai_assistant exState2 "Can you add a hero section?" 10).2
      = "I\x27ve created a hero section for your website. You can adjust the title, subtitle, and button text in the properties panel." ∧
    (ai_assistant exState2 "xyz" 10).2
      = "I\x27ve processed your request: \x27" ++ "xyz"
          ++ "\x27. In a real implementation, I would generate components or fix issues based on your prompt." ∧
    hasSub (ai_assistant exState2 "xyz" 10).2 "xyz" = true :=
  ⟨(assistant_priority_and_purity exState2 "Can you add a hero section?" 10).1,
   (assistant_priority_and_purity exState2 "Can you add a hero section?" 10).2.2.1
     (by decide) (by decide),
   ((assistant_priority_and_purity exState2 "xyz" 10).2.2.2.2.2
     (by decide) (by decide) (by decide) (by decide)).1,
   ((assistant_priority_and_purity exState2 "xyz" 10).2.2.2.2.2
     (by decide) (by decide) (by decide) (by decide)).2⟩

/-- Claim C6: generation is deterministic and side-effect free — on a fixed
store the generate-code route answers the same artifact bundle on every call —
and the styles, script and schema artifacts (and the server stub, which reads
only the project name) are the same text for any two component snapshots. -/
theorem generation_deterministic_constant (s : State) (uid pid : Nat) (p : Project)
    (cs cs2 : List Component) :
    generate_code s uid pid = generate_code s uid pid ∧
    generate_html cs = generate_html cs ∧
    generate_css cs = generate_css cs2 ∧
    generate_js cs = generate_js cs2 ∧
    generate_db_schema cs = generate_db_schema cs2 ∧
    generate_python_api p cs = generate_python_api p cs2 :=
  ⟨rfl, rfl, rfl, rfl, rfl, rfl⟩

/-- Claim C7 counterexample: the sample user registers the email, then a
second signup arrives with the same email but no password; the source answers
InvalidInput (400), not Conflict (409), because the missing-field check runs
first — so the claim that an already-registered email always yields Conflict
fails at this input. -/
theorem signup_conflict_counterexample :
    (∃ u ∈ exStateU.users, u.email = "ada@example.com") ∧
    (signup exStateU (some "ada@example.com") none (some "Eve") 2 5).1
      = SignupRes.invalid ∧
    SignupRes.invalid ≠ SignupRes.conflict := by
  decide

/-- Claim C7 (amended): when email or password is missing or empty, signup
fails with InvalidInput and writes nothing — this check precedes the duplicate
lookup; when both are supplied and the email is already registered, signup
fails with Conflict and writes nothing, so no second record with that email is
ever created. -/
theorem signup_error_paths (s : State) (email password name : Option String)
    (uid now : Nat) :
    ((email.getD "" = "" ∨ password.getD "" = "") →
      (signup s email password name uid now).1 = SignupRes.invalid ∧
      (signup s email password name uid now).2 = s) ∧
    (email.getD "" ≠ "" → password.getD "" ≠ "" →
      (∃ u ∈ s.users, u.email = email.getD "") →
      (signup s email password name uid now).1 = SignupRes.conflict ∧
      (signup s email password name uid now).2 = s) := by
  constructor
  · intro h
    have hcond : (email.getD "" == "" || password.getD "" == "") = true := by
      rcases h with h | h <;> simp [h]
    simp [signup, hcond]
  · intro h1 h2 hex
    have hcond : (email.getD "" == "" || password.getD "" == "") = false := by
      simp [h1, h2]
    unfold signup
    cases hfind : s.users.find? (fun u => u.email == email.getD "") with
    | none =>
      exfalso
      rw [List.find?_eq_none] at hfind
      obtain ⟨u, hu, he⟩ := hex
      exact hfind u hu (by simp [he])
    | some u => simp [hcond, hfind]

theorem signup_error_paths_witness :
    ((signup exStateU none (some "pw1") none 2 5).1 = SignupRes.invalid ∧
      (signup exStateU none (some "pw1") none 2 5).2 = exStateU) ∧
    ((signup exStateU (some "ada@example.com") (some "pw2") (some "Eve") 2 5).1
        = SignupRes.conflict ∧
      (signup exStateU (some "ada@example.com") (some "pw2") (some "Eve") 2 5).2
        = exStateU) :=
  ⟨(signup_error_paths exStateU none (some "pw1") none 2 5).1 (by decide),
   (signup_error_paths exStateU (some "ada@example.com") (some "pw2") (some "Eve") 2 5).2
     (by decide) (by decide) (by decide)⟩

/-- Claim C8: creating a project with name or description omitted defaults the
name to Untitled Project, the description to the empty string and the
component list to empty, and a Get with the fresh id right after the Create
answers exactly the created record. -/
theorem project_create_defaults_roundtrip (s : State) (uid : Nat)
    (name description : Option String) (pid now : Nat) (hfresh : pid ∉ projectIds s) :
    (handle_projects_post s uid name description pid now).1.name
        = name.getD "Untitled Project" ∧
    (handle_projects_post s uid name description pid now).1.description
        = description.getD "" ∧
    (handle_projects_post s uid name description pid now).1.components = [] ∧
    getProject (handle_projects_post s uid name description pid now).2 uid pid
        = some (handle_projects_post s uid name description pid now).1 := by
  refine ⟨rfl, rfl, rfl, ?_⟩
  unfold getProject handle_projects_post
  rw [List.find?_append]
  have hnone : s.projects.find? (fun q => q.project_id == pid && q.user_id == uid)
      = none := by
    rw [List.find?_eq_none]
    intro x hx hpred
    simp only [Bool.and_eq_true, beq_iff_eq] at hpred
    have : x.project_id ∈ s.projects.map Project.project_id :=
      List.mem_map_of_mem Project.project_id hx
    rw [hpred.1] at this
    exact hfresh this
  rw [hnone]
  simp

theorem project_create_defaults_roundtrip_witness :
    (handle_projects_post exState2 1 none (some "demo") 30 7).1.name
        = "Untitled Project" ∧
    (handle_projects_post exState2 1 none (some "demo") 30 7).1.description = "demo" ∧
    (handle_projects_post exState2 1 none (some "demo") 30 7).1.components = [] ∧
    getProject (handle_projects_post exState2 1 none (some "demo") 30 7).2 1 30
        = some (handle_projects_post exState2 1 none (some "demo") 30 7).1 :=
  project_create_defaults_roundtrip exState2 1 none (some "demo") 30 7 (by decide)

/-- Claim C9: a component Update leaves the stored type tag unchanged even
when the request supplies a new type value; only properties, content, position
and updated_at are written, while component_id, project_id and created_at are
likewise preserved, and every other component record is untouched. -/
theorem component_update_preserves_type (s : State) (uid pid cid : Nat)
    (req : UpdateComponentReq) (now : Nat) (c0 c : Component) (s' : State)
    (hreach : Reachable s)
    (hc0 : s.components.find? (fun d => d.component_id == cid && d.project_id == pid)
      = some c0)
    (h : handle_component_put s uid pid cid req now = Except.ok (c, s')) :
    c.type = c0.type ∧ c.component_id = c0.component_id ∧
    c.project_id = c0.project_id ∧ c.created_at = c0.created_at ∧
    c.properties = req.properties.getD c0.properties ∧
    c.content = req.content.getD c0.content ∧
    c.position = req.position.getD c0.position ∧
    c.updated_at = now ∧
    (∀ d ∈ s.components, d.component_id ≠ cid → d ∈ s'.components) := by
  obtain ⟨p0, c1, comps, hg, hf, hcomps, hf2, hs'⟩ := component_put_state h
  rw [hc0] at hf
  injection hf with hf
  subst hf
  have hinv := inv_of_reachable hreach
  have hfind := find?_key_updateFirst (g := Component.component_id) (k := cid)
    (q := fun d => d.project_id == pid)
    (f := fun d => { d with
                     properties := req.properties.getD c0.properties
                     content := req.content.getD c0.content
                     position := req.position.getD c0.position
                     updated_at := now })
    hinv.comp_nodup hc0 (fun x => rfl)
  rw [← hcomps] at hfind
  rw [hf2] at hfind
  injection hfind with hfind
  subst hfind
  subst hs'
  refine ⟨rfl, rfl, rfl, rfl, rfl, rfl, rfl, rfl, ?_⟩
  intro d hd hdne
  subst hcomps
  apply mem_updateFirst_of_not _ hd
  simpa using hdne

theorem component_update_preserves_type_witness :
    exComponent3.type = exComponent.type ∧
    exComponent3.component_id = exComponent.component_id ∧
    exComponent3.project_id = exComponent.project_id ∧
    exComponent3.created_at = exComponent.created_at ∧
    exComponent3.properties = exUpdateReq.properties.getD exComponent.properties ∧
    exComponent3.content = exUpdateReq.content.getD exComponent.content ∧
    exComponent3.position = exUpdateReq.position.getD exComponent.position ∧
    exComponent3.updated_at = 3 ∧
    (∀ d ∈ exState2.components, d.component_id ≠ 20 → d ∈ exState4.components) :=
  component_update_preserves_type exState2 1 10 20 exUpdateReq 3 exComponent
    exComponent3 exState4 reachable_exState2 (by decide) (by rfl)

/-- Claim C10: the markup a component contributes is determined by the
lower-casing of its type tag — two tags with the same lowering (such as
HEADER, Header and header) yield the same fragment — and a component without a
type entry falls through every recognized case and contributes nothing. -/
theorem dispatch_case_insensitive (c : Component) (t u : String)
    (h : pyLower t = pyLower u) :
    componentHtml { c with type := some t } = componentHtml { c with type := some u } ∧
    componentHtml { c with type := none } = "" := by
  constructor
  · simp only [componentHtml, Option.getD_some, h]
  · have e1 : ((none : Option String).getD "") = "" := rfl
    have e2 : pyLower "" = "" := by decide
    simp [componentHtml, e1, e2]

theorem dispatch_case_insensitive_witness :
    componentHtml { exComponent with type := some "HEADER" }
        = componentHtml { exComponent with type := some "header" } ∧
    componentHtml { exComponent with type := none } = "" :=
  dispatch_case_insensitive exComponent "HEADER" "header" (by decide)
